import Mathlib

/-!
Verification of the reporting-service trade-compliance core.

Shallow embedding of the analysis components of `reporting_service`
(models/analysis.py, analysis/exit_classifier.py, analysis/rule_evaluator.py,
analysis/deviation_analyzer.py, analysis/signal_outcome_analyzer.py).

Conventions of the embedding:
- Python floats are modelled as rationals (`ℚ`); all the arithmetic in the
  analysed code is exact decimal arithmetic on small constants.
- `Optional[T]` is `Option T`; Python truthiness of an optional number
  (`if x:`) is `Option.isSome` combined with the value being nonzero.
- An indicator dict (`Dict[str, float]`) is an association list
  `List (String × ℚ)`; `dict.get(k)` is `List.lookup`; absence of a key is
  `none`.  Python dict truthiness (`if d:`) is non-emptiness.
- Exceptions raised by a collaborator call are modelled by the call
  returning `Option`/failure (`none`).
- String diagnostics (the `reasoning` f-strings, notes, warnings) carry no
  decision logic and are omitted from the records.
-/

namespace ReportingService

/-- Python truthiness of an optional rational (`if x:` with `x : Optional[float]`). -/
def qTruthy : Option ℚ → Bool
  | none => false
  | some v => v != 0

/-- Python truthiness of an optional integer (`if x:` with `x : Optional[int]`). -/
def iTruthy : Option Int → Bool
  | none => false
  | some v => v != 0

/-- An indicator snapshot: a Python `Dict[str, float]`. -/
abbrev Indicators := List (String × ℚ)

/-- `indicators.get(key)` on a Python dict. -/
def iget (ind : Indicators) (key : String) : Option ℚ :=
  List.lookup key ind

/-- `ExitType` from models/analysis.py. -/
inductive ExitType
  | PROFIT_TARGET
  | STOP_LOSS
  | TRAILING_STOP
  | TIME_BASED
  | MANUAL
  | UNKNOWN
deriving DecidableEq

/-- `ComplianceLevel` from models/analysis.py. -/
inductive ComplianceLevel
  | EXCELLENT
  | GOOD
  | FAIR
  | POOR
  | NON_COMPLIANT
deriving DecidableEq

/-- `ComplianceLevel.from_score` (models/analysis.py lines 34-46). -/
def ComplianceLevel.from_score (score : ℚ) : ComplianceLevel :=
  if 0.90 ≤ score then ComplianceLevel.EXCELLENT
  else if 0.70 ≤ score then ComplianceLevel.GOOD
  else if 0.50 ≤ score then ComplianceLevel.FAIR
  else if 0.30 ≤ score then ComplianceLevel.POOR
  else ComplianceLevel.NON_COMPLIANT

/-- Numeric rank of a compliance level, used to state monotonicity
(NON_COMPLIANT lowest, EXCELLENT highest, matching the score bands). -/
def levelRank : ComplianceLevel → ℕ
  | ComplianceLevel.NON_COMPLIANT => 0
  | ComplianceLevel.POOR => 1
  | ComplianceLevel.FAIR => 2
  | ComplianceLevel.GOOD => 3
  | ComplianceLevel.EXCELLENT => 4

/-- `RuleEvaluation` from models/analysis.py (decision-relevant fields). -/
structure RuleEvaluation where
  rule_name : String
  triggered : Bool
  signal_type : Option String
  confidence : ℚ
deriving DecidableEq

/-- `Position` from models/position.py (the fields the analysis core reads). -/
structure Position where
  id : Int
  symbol : String
  status : String
  realized_pl : Option ℚ := none
  realized_pl_pct : Option ℚ := none
  holding_days : Option Int := none
deriving DecidableEq

/-- `Position.is_winner` (models/position.py lines 134-137):
`realized_pl is not None and realized_pl > 0`. -/
def Position.is_winner (p : Position) : Bool :=
  match p.realized_pl with
  | none => false
  | some v => decide (0 < v)

/-- `TradeAnalysis` from models/analysis.py (the fields the claims touch). -/
structure TradeAnalysis where
  position_id : Int
  entry_signal_matched : Bool := false
  entry_signal_confidence : ℚ := 0
  entry_signal_type : Option String := none
  recommended_shares : Option Int := none
  position_size_deviation : ℚ := 0
  exit_type : ExitType := ExitType.UNKNOWN
  rule_compliance_score : ℚ := 0
  compliance_level : ComplianceLevel := ComplianceLevel.NON_COMPLIANT
deriving DecidableEq

/-- `TradeAnalysis.calculate_compliance_score` (models/analysis.py lines
110-139), as the pure score computation.  The Python method builds a list
of the three terms and sums it; `recommended_shares and recommended_shares
> 0` is optional-int truthiness conjoined with the positivity test. -/
def calculate_compliance_score (a : TradeAnalysis) : ℚ :=
  let entryScore : ℚ :=
    if a.entry_signal_matched then a.entry_signal_confidence * 0.4 else 0
  let sizingScore : ℚ :=
    if iTruthy a.recommended_shares ∧ 0 < a.recommended_shares.getD 0 then
      (1 - min |a.position_size_deviation| 1) * 0.3
    else 0.15
  let exitScore : ℚ :=
    if a.exit_type = ExitType.PROFIT_TARGET ∨ a.exit_type = ExitType.STOP_LOSS then 0.3
    else if a.exit_type = ExitType.TRAILING_STOP then 0.25
    else if a.exit_type = ExitType.TIME_BASED then 0.2
    else 0.1
  entryScore + sizingScore + exitScore

/-- `ExitClassifier._check_trailing_stop_pattern` (exit_classifier.py lines
87-117).  `if atr and close and high` is optional-float truthiness, so a
present-but-zero value fails the check.  The Python locals `pl_pct`, `atr`,
`close`, `high` are inlined. -/
def check_trailing_stop_pattern (pos : Position) (indicators : Indicators) : Bool :=
  match pos.realized_pl_pct with
  | none => false
  | some plPct =>
    if -0.03 < plPct / 100 ∧ plPct / 100 < 0.02 then
      if qTruthy (iget indicators "atr_14") ∧ qTruthy (iget indicators "close") ∧
          qTruthy (iget indicators "high") then
        decide ((iget indicators "high").getD 0 - (iget indicators "close").getD 0 ≤
          (iget indicators "atr_14").getD 0 * 2)
      else false
    else false

/-- Python truthiness of an `Optional[dict]` argument (`if indicators_at_exit:`). -/
def indTruthy : Option Indicators → Bool
  | none => false
  | some l => !l.isEmpty

/-- `ExitClassifier.classify` (exit_classifier.py lines 43-85), parameterised
by the symbol-resolved profit/stop thresholds that `_get_thresholds`
returns. -/
def classify (profit_threshold stop_threshold : ℚ) (pos : Position)
    (indicators_at_exit : Option Indicators) : ExitType :=
  if pos.status ≠ "closed" ∨ pos.realized_pl_pct = none then ExitType.UNKNOWN
  else if profit_threshold ≤ pos.realized_pl_pct.getD 0 / 100 then ExitType.PROFIT_TARGET
  else if pos.realized_pl_pct.getD 0 / 100 ≤ stop_threshold then ExitType.STOP_LOSS
  else if (iTruthy pos.holding_days ∧ 20 < pos.holding_days.getD 0) ∧
      |pos.realized_pl_pct.getD 0 / 100| < 0.02 then
    ExitType.TIME_BASED
  else if indTruthy indicators_at_exit ∧
      check_trailing_stop_pattern pos (indicators_at_exit.getD []) then
    ExitType.TRAILING_STOP
  else ExitType.MANUAL

/-- Exit classification exactly as claim C2 words it, reading "atr/close/high
present" as key presence in the snapshot.  Kept separate from `classify`
(the translation of the code) so the two can be compared. -/
def classify_claimed_C2 (profit_threshold stop_threshold : ℚ) (pos : Position)
    (indicators_at_exit : Option Indicators) : ExitType :=
  if pos.status ≠ "closed" ∨ pos.realized_pl_pct = none then ExitType.UNKNOWN
  else if profit_threshold ≤ pos.realized_pl_pct.getD 0 / 100 then ExitType.PROFIT_TARGET
  else if pos.realized_pl_pct.getD 0 / 100 ≤ stop_threshold then ExitType.STOP_LOSS
  else if pos.holding_days.any (fun d => decide (20 < d)) ∧
      |pos.realized_pl_pct.getD 0 / 100| < 0.02 then
    ExitType.TIME_BASED
  else if indicators_at_exit.any (fun l =>
      decide (-0.03 < pos.realized_pl_pct.getD 0 / 100 ∧ pos.realized_pl_pct.getD 0 / 100 < 0.02) &&
      ((iget l "atr_14").isSome && (iget l "close").isSome && (iget l "high").isSome) &&
      decide ((iget l "high").getD 0 - (iget l "close").getD 0 ≤ 2 * (iget l "atr_14").getD 0)) then
    ExitType.TRAILING_STOP
  else ExitType.MANUAL

/-- Claim C2 as amended: identical to the claim's wording except that
"atr/close/high present" becomes "present and nonzero" (the Python
truthiness the code applies). -/
def classify_amended_C2 (profit_threshold stop_threshold : ℚ) (pos : Position)
    (indicators_at_exit : Option Indicators) : ExitType :=
  if pos.status ≠ "closed" ∨ pos.realized_pl_pct = none then ExitType.UNKNOWN
  else if profit_threshold ≤ pos.realized_pl_pct.getD 0 / 100 then ExitType.PROFIT_TARGET
  else if pos.realized_pl_pct.getD 0 / 100 ≤ stop_threshold then ExitType.STOP_LOSS
  else if pos.holding_days.any (fun d => decide (20 < d)) ∧
      |pos.realized_pl_pct.getD 0 / 100| < 0.02 then
    ExitType.TIME_BASED
  else if indicators_at_exit.any (fun l =>
      decide (-0.03 < pos.realized_pl_pct.getD 0 / 100 ∧ pos.realized_pl_pct.getD 0 / 100 < 0.02) &&
      (qTruthy (iget l "atr_14") && qTruthy (iget l "close") && qTruthy (iget l "high")) &&
      decide ((iget l "high").getD 0 - (iget l "close").getD 0 ≤ 2 * (iget l "atr_14").getD 0)) then
    ExitType.TRAILING_STOP
  else ExitType.MANUAL

/-- A closed break-even position (input of the C2 counterexample). -/
def posC2 : Position :=
  { id := 1, symbol := "AAPL", status := "closed",
    realized_pl := some 0, realized_pl_pct := some 0, holding_days := none }

/-- Exit snapshot with atr_14 present but zero (input of the C2 counterexample). -/
def indC2 : Indicators := [("atr_14", 0), ("close", 100), ("high", 100)]

/-- The dominant-signal aggregation of `RuleEvaluator._evaluate_with_rules`
(rule_evaluator.py lines 193-203) as a function of the pooled triggered
BUY/SELL confidences: mean of the BUY pool plus the consensus boost capped
at 1.0, else mean of the SELL pool, else no signal. -/
def aggregate_with_rules (buy_signals sell_signals : List ℚ) : Option String × ℚ :=
  if buy_signals ≠ [] ∧ sell_signals.length ≤ buy_signals.length then
    (some "BUY",
      min 1 (buy_signals.sum / (buy_signals.length : ℚ) +
        min 0.15 (0.05 * ((buy_signals.length : ℚ) - 1))))
  else if sell_signals ≠ [] then
    (some "SELL", sell_signals.sum / (sell_signals.length : ℚ))
  else (none, 0)

/-- The dominant-signal aggregation of `RuleEvaluator._evaluate_fallback`
(rule_evaluator.py lines 279-288): same selection rule, no consensus boost. -/
def aggregate_fallback (buy_signals sell_signals : List ℚ) : Option String × ℚ :=
  if buy_signals ≠ [] ∧ sell_signals.length ≤ buy_signals.length then
    (some "BUY", buy_signals.sum / (buy_signals.length : ℚ))
  else if sell_signals ≠ [] then
    (some "SELL", sell_signals.sum / (sell_signals.length : ℚ))
  else (none, 0)

/-- Evaluations appended by the trend check of `_evaluate_fallback`
(rule_evaluator.py lines 221-241).  `close` is `indicators.get("close", 0)`
— a missing close is read as 0 — while `sma_200` is truthiness-tested. -/
def trend_evals (ind : Indicators) : List RuleEvaluation :=
  if qTruthy (iget ind "sma_200") ∧
      (iget ind "sma_200").getD 0 < (iget ind "close").getD 0 then
    [⟨"trend_following", true, some "BUY", 0.6⟩]
  else if qTruthy (iget ind "sma_200") ∧
      (iget ind "close").getD 0 < (iget ind "sma_200").getD 0 then
    [⟨"trend_following", true, some "SELL", 0.5⟩]
  else []

/-- Signals appended by the trend check of `_evaluate_fallback`. -/
def trend_signals (ind : Indicators) : List (String × ℚ) :=
  if qTruthy (iget ind "sma_200") ∧
      (iget ind "sma_200").getD 0 < (iget ind "close").getD 0 then
    [("BUY", 0.6)]
  else if qTruthy (iget ind "sma_200") ∧
      (iget ind "close").getD 0 < (iget ind "sma_200").getD 0 then
    [("SELL", 0.5)]
  else []

/-- Evaluations appended by the golden/death-cross check of
`_evaluate_fallback` (rule_evaluator.py lines 243-254). -/
def cross_evals (ind : Indicators) : List RuleEvaluation :=
  if (qTruthy (iget ind "sma_50") ∧ qTruthy (iget ind "sma_200")) ∧
      (iget ind "sma_200").getD 0 < (iget ind "sma_50").getD 0 then
    [⟨"moving_average_crossover", true, some "BUY", 0.55⟩]
  else []

/-- Signals appended by the golden/death-cross check of `_evaluate_fallback`. -/
def cross_signals (ind : Indicators) : List (String × ℚ) :=
  if (qTruthy (iget ind "sma_50") ∧ qTruthy (iget ind "sma_200")) ∧
      (iget ind "sma_200").getD 0 < (iget ind "sma_50").getD 0 then
    [("BUY", 0.55)]
  else []

/-- Evaluations appended by the RSI check of `_evaluate_fallback`
(rule_evaluator.py lines 256-277). -/
def rsi_evals (ind : Indicators) : List RuleEvaluation :=
  if qTruthy (iget ind "rsi_14") ∧ (iget ind "rsi_14").getD 0 < 30 then
    [⟨"rsi_oversold", true, some "BUY", 0.65⟩]
  else if qTruthy (iget ind "rsi_14") ∧ 70 < (iget ind "rsi_14").getD 0 then
    [⟨"rsi_overbought", true, some "SELL", 0.6⟩]
  else []

/-- Signals appended by the RSI check of `_evaluate_fallback`. -/
def rsi_signals (ind : Indicators) : List (String × ℚ) :=
  if qTruthy (iget ind "rsi_14") ∧ (iget ind "rsi_14").getD 0 < 30 then
    [("BUY", 0.65)]
  else if qTruthy (iget ind "rsi_14") ∧ 70 < (iget ind "rsi_14").getD 0 then
    [("SELL", 0.6)]
  else []

/-- `RuleEvaluator._evaluate_fallback` (rule_evaluator.py lines 205-288):
run the three fixed checks in order, split the collected signals into BUY
and SELL pools, and aggregate.  Returns (evaluations, dominant signal,
aggregate confidence). -/
def evaluate_fallback (ind : Indicators) :
    List RuleEvaluation × Option String × ℚ :=
  (trend_evals ind ++ cross_evals ind ++ rsi_evals ind,
    aggregate_fallback
      (((trend_signals ind ++ cross_signals ind ++ rsi_signals ind).filter
        (fun s => s.1 == "BUY")).map Prod.snd)
      (((trend_signals ind ++ cross_signals ind ++ rsi_signals ind).filter
        (fun s => s.1 == "SELL")).map Prod.snd))

/-- Snapshot with sma_200 present but close absent (input of the C4
counterexample). -/
def indC4 : Indicators := [("sma_200", 140)]

/-- The snapshot of the claim C4 scenario. -/
def indC4scenario : Indicators := [("close", 150), ("sma_200", 140)]

/-- A confidence bucket (label, low, high). -/
structure ConfBucket where
  label : String
  lo : ℚ
  hi : ℚ
deriving DecidableEq

/-- `CONFIDENCE_BUCKETS` (signal_outcome_analyzer.py lines 28-33). -/
def CONFIDENCE_BUCKETS : List ConfBucket :=
  [{ label := "0-25%", lo := 0, hi := 0.25 },
   { label := "25-50%", lo := 0.25, hi := 0.50 },
   { label := "50-75%", lo := 0.50, hi := 0.75 },
   { label := "75-100%", lo := 0.75, hi := 1.01 }]

/-- The bucket `_analyze_by_confidence` counts a confidence into: the first
bucket with low ≤ conf < high (the loop breaks at the first match;
signal_outcome_analyzer.py lines 230-238). -/
def bucketAssign (conf : ℚ) : Option String :=
  (CONFIDENCE_BUCKETS.find? (fun b => decide (b.lo ≤ conf) && decide (conf < b.hi))).map
    ConfBucket.label

/-- Per-bucket trade counts of `_analyze_by_confidence`
(signal_outcome_analyzer.py lines 221-257). -/
def confidence_bucket_counts (pairs : List (TradeAnalysis × Position)) :
    List (String × ℕ) :=
  CONFIDENCE_BUCKETS.map fun b =>
    (b.label, (pairs.filter
      (fun p => decide (bucketAssign p.1.entry_signal_confidence = some b.label))).length)

/-- `SignalOutcomeAnalyzer._build_pairs` (signal_outcome_analyzer.py lines
95-106): pair each analysis with the position its id looks up, keeping only
pairs whose position exists and has a realized P&L percent (`if position
and position.realized_pl_pct is not None`; a dataclass instance is always
truthy). -/
def build_pairs (analyses : List TradeAnalysis)
    (positions_by_id : Int → Option Position) : List (TradeAnalysis × Position) :=
  match analyses with
  | [] => []
  | a :: rest =>
    match positions_by_id a.position_id with
    | some p =>
      if p.realized_pl_pct.isSome then
        (a, p) :: build_pairs rest positions_by_id
      else build_pairs rest positions_by_id
    | none => build_pairs rest positions_by_id

/-- `DeviationAnalyzer.analyze_positions` (deviation_analyzer.py lines
238-250).  The per-position `analyze_position` call is abstracted as a
fallible function: `none` models the call raising an exception, in which
case the `except` arm logs, skips the position, and the loop continues. -/
def analyze_positions (analyze_one : Position → Option TradeAnalysis) :
    List Position → List TradeAnalysis
  | [] => []
  | p :: rest =>
    match analyze_one p with
    | some a => a :: analyze_positions analyze_one rest
    | none => analyze_positions analyze_one rest

/-- A position whose analysis succeeds (input of the C9 witness). -/
def posC9a : Position := { id := 1, symbol := "AAA", status := "closed" }

/-- A per-position analysis that fails exactly on position id 2 (input of
the C9 witness). -/
def fC9 : Position → Option TradeAnalysis :=
  fun p => if p.id = 2 then none else some { position_id := p.id }

/-- `ComplianceMetrics` from models/analysis.py (lines 167-198). -/
structure ComplianceMetrics where
  total_positions : ℕ := 0
  analyzed_positions : ℕ := 0
  excellent_count : ℕ := 0
  good_count : ℕ := 0
  fair_count : ℕ := 0
  poor_count : ℕ := 0
  non_compliant_count : ℕ := 0
  avg_compliance_score : ℚ := 0
  avg_entry_confidence : ℚ := 0
  avg_position_size_deviation : ℚ := 0
  entries_with_buy_signal : ℕ := 0
  entries_without_signal : ℕ := 0
  profit_target_exits : ℕ := 0
  stop_loss_exits : ℕ := 0
  manual_exits : ℕ := 0
  other_exits : ℕ := 0
  compliant_win_rate : ℚ := 0
  non_compliant_win_rate : ℚ := 0
deriving DecidableEq

/-- Compliant winners counted by `generate_report`'s loop
(deviation_analyzer.py lines 327-342): analyses whose position the
repository lookup finds, with score ≥ 0.50 and a winning position. -/
def compliant_wins (lookup : Int → Option Position)
    (analyses : List TradeAnalysis) : ℕ :=
  analyses.countP fun a =>
    match lookup a.position_id with
    | some p => decide (0.50 ≤ a.rule_compliance_score) && p.is_winner
    | none => false

/-- Compliant losers counted by `generate_report`'s loop. -/
def compliant_losses (lookup : Int → Option Position)
    (analyses : List TradeAnalysis) : ℕ :=
  analyses.countP fun a =>
    match lookup a.position_id with
    | some p => decide (0.50 ≤ a.rule_compliance_score) && !p.is_winner
    | none => false

/-- Non-compliant winners counted by `generate_report`'s loop. -/
def non_compliant_wins (lookup : Int → Option Position)
    (analyses : List TradeAnalysis) : ℕ :=
  analyses.countP fun a =>
    match lookup a.position_id with
    | some p => !decide (0.50 ≤ a.rule_compliance_score) && p.is_winner
    | none => false

/-- Non-compliant losers counted by `generate_report`'s loop. -/
def non_compliant_losses (lookup : Int → Option Position)
    (analyses : List TradeAnalysis) : ℕ :=
  analyses.countP fun a =>
    match lookup a.position_id with
    | some p => !decide (0.50 ≤ a.rule_compliance_score) && !p.is_winner
    | none => false

/-- The `ComplianceMetrics` that `DeviationAnalyzer.generate_report` builds
for a non-empty batch (deviation_analyzer.py lines 279-363).  The Python
loop accumulates counters and three value lists over the analyses: each
counter is the count of analyses taking its branch of the if/elif/else
chains, and each average is the sum of the collected list divided by its
length (0 when the list is empty).  The win rates divide the win counters,
left 0 when the denominator is 0. -/
def computeMetrics (lookup : Int → Option Position)
    (analyses : List TradeAnalysis) : ComplianceMetrics :=
  { total_positions := analyses.length
    analyzed_positions := analyses.length
    excellent_count := analyses.countP fun a =>
      decide (a.compliance_level = ComplianceLevel.EXCELLENT)
    good_count := analyses.countP fun a =>
      decide (a.compliance_level = ComplianceLevel.GOOD)
    fair_count := analyses.countP fun a =>
      decide (a.compliance_level = ComplianceLevel.FAIR)
    poor_count := analyses.countP fun a =>
      decide (a.compliance_level = ComplianceLevel.POOR)
    non_compliant_count := analyses.countP fun a =>
      decide (a.compliance_level ≠ ComplianceLevel.EXCELLENT ∧
        a.compliance_level ≠ ComplianceLevel.GOOD ∧
        a.compliance_level ≠ ComplianceLevel.FAIR ∧
        a.compliance_level ≠ ComplianceLevel.POOR)
    avg_compliance_score :=
      if analyses = [] then 0
      else (analyses.map (fun a => a.rule_compliance_score)).sum / (analyses.length : ℚ)
    avg_entry_confidence :=
      if analyses = [] then 0
      else (analyses.map (fun a => a.entry_signal_confidence)).sum / (analyses.length : ℚ)
    avg_position_size_deviation :=
      if analyses = [] then 0
      else (analyses.map (fun a => |a.position_size_deviation|)).sum / (analyses.length : ℚ)
    entries_with_buy_signal := analyses.countP fun a => a.entry_signal_matched
    entries_without_signal := analyses.countP fun a => !a.entry_signal_matched
    profit_target_exits := analyses.countP fun a =>
      decide (a.exit_type = ExitType.PROFIT_TARGET)
    stop_loss_exits := analyses.countP fun a =>
      decide (a.exit_type = ExitType.STOP_LOSS)
    manual_exits := analyses.countP fun a =>
      decide (a.exit_type = ExitType.MANUAL)
    other_exits := analyses.countP fun a =>
      decide (a.exit_type ≠ ExitType.PROFIT_TARGET ∧
        a.exit_type ≠ ExitType.STOP_LOSS ∧ a.exit_type ≠ ExitType.MANUAL)
    compliant_win_rate :=
      if 0 < compliant_wins lookup analyses + compliant_losses lookup analyses then
        (compliant_wins lookup analyses : ℚ) /
          ((compliant_wins lookup analyses : ℚ) + (compliant_losses lookup analyses : ℚ))
      else 0
    non_compliant_win_rate :=
      if 0 < non_compliant_wins lookup analyses + non_compliant_losses lookup analyses then
        (non_compliant_wins lookup analyses : ℚ) /
          ((non_compliant_wins lookup analyses : ℚ) +
            (non_compliant_losses lookup analyses : ℚ))
      else 0 }

/-- The report fields of `DeviationAnalyzer.generate_report` the claims
concern (deviation_analyzer.py lines 252-376): aggregate metrics and the
ranked extremes.  Timestamps, the `analyses` echo, and the generated
insight strings are omitted. -/
structure DeviationReport where
  metrics : ComplianceMetrics
  worst_deviations : List TradeAnalysis
  best_compliant : List TradeAnalysis
deriving DecidableEq

/-- `DeviationAnalyzer.generate_report` (deviation_analyzer.py lines
252-376).  Python's `sorted(analyses, key=score)` is a stable ascending
sort; `List.insertionSort` with the non-strict key comparison has exactly
those semantics.  `sorted[-5:][::-1]` — the last five reversed — is the
first five of the reversed sorted list. -/
def generate_report (lookup : Int → Option Position)
    (analyses : List TradeAnalysis) : DeviationReport :=
  if analyses = [] then
    { metrics := {}, worst_deviations := [], best_compliant := [] }
  else
    { metrics := computeMetrics lookup analyses
      worst_deviations :=
        (List.insertionSort
          (fun a b => a.rule_compliance_score ≤ b.rule_compliance_score) analyses).take 5
      best_compliant :=
        (List.insertionSort
          (fun a b => a.rule_compliance_score ≤ b.rule_compliance_score)
            analyses).reverse.take 5 }

/-- First analysis of the C5 counterexample: score 0.5, position 1. -/
def taC5a : TradeAnalysis :=
  { position_id := 1, rule_compliance_score := 0.5,
    compliance_level := ComplianceLevel.FAIR }

/-- Second analysis of the C5 counterexample: same score 0.5, position 2. -/
def taC5b : TradeAnalysis :=
  { position_id := 2, rule_compliance_score := 0.5,
    compliance_level := ComplianceLevel.FAIR }

end ReportingService

namespace ReportingService

/-- Claim C1: for every TradeAnalysis with entry_signal_confidence in [0,1],
`calculate_compliance_score` is the sum of the entry term
(confidence × 0.4 when matched, else 0), the sizing term
((1 − min(|deviation|,1)) × 0.3 when a recommended share count > 0 exists,
else 0.15) and the exit term (0.3 for PROFIT_TARGET/STOP_LOSS, 0.25 for
TRAILING_STOP, 0.2 for TIME_BASED, 0.1 for MANUAL/UNKNOWN), and the sum
lies in [0,1]. -/
theorem C1_compliance_score_formula_and_bounds (a : TradeAnalysis)
    (h0 : 0 ≤ a.entry_signal_confidence) (h1 : a.entry_signal_confidence ≤ 1) :
    calculate_compliance_score a =
      (if a.entry_signal_matched then a.entry_signal_confidence * (2/5) else 0) +
      (if ∃ r : Int, a.recommended_shares = some r ∧ 0 < r then
          (1 - min |a.position_size_deviation| 1) * (3/10)
        else 3/20) +
      (match a.exit_type with
        | ExitType.PROFIT_TARGET => 3/10
        | ExitType.STOP_LOSS => 3/10
        | ExitType.TRAILING_STOP => 1/4
        | ExitType.TIME_BASED => 1/5
        | ExitType.MANUAL => 1/10
        | ExitType.UNKNOWN => 1/10) ∧
    0 ≤ calculate_compliance_score a ∧ calculate_compliance_score a ≤ 1 := by
  have hsizing : (iTruthy a.recommended_shares ∧ 0 < a.recommended_shares.getD 0) ↔
      (∃ r : Int, a.recommended_shares = some r ∧ 0 < r) := by
    cases h : a.recommended_shares with
    | none => simp [iTruthy]
    | some r =>
      simp only [iTruthy, Option.getD_some, bne_iff_ne, ne_eq, Option.some.injEq]
      constructor
      · rintro ⟨-, hr⟩; exact ⟨r, rfl, hr⟩
      · rintro ⟨r', rfl, hpos⟩
        exact ⟨by omega, hpos⟩
  have habs0 : (0:ℚ) ≤ min |a.position_size_deviation| 1 :=
    le_min (abs_nonneg _) (by norm_num)
  have habs1 : min |a.position_size_deviation| 1 ≤ 1 := min_le_right _ _
  constructor
  · unfold calculate_compliance_score
    rcases em (a.entry_signal_matched = true) with hm | hm <;>
    rcases em (∃ r : Int, a.recommended_shares = some r ∧ 0 < r) with hr | hr <;>
    cases a.exit_type <;>
      simp [hm, hr, hsizing] <;> norm_num
  · unfold calculate_compliance_score
    have hentry : (0:ℚ) ≤ (if a.entry_signal_matched then a.entry_signal_confidence * 0.4 else 0) ∧
        (if a.entry_signal_matched then a.entry_signal_confidence * 0.4 else 0) ≤ 0.4 := by
      split
      · constructor
        · positivity
        · nlinarith
      · norm_num
    have hsz : (0:ℚ) ≤ (if iTruthy a.recommended_shares ∧ 0 < a.recommended_shares.getD 0 then
          (1 - min |a.position_size_deviation| 1) * 0.3 else 0.15) ∧
        (if iTruthy a.recommended_shares ∧ 0 < a.recommended_shares.getD 0 then
          (1 - min |a.position_size_deviation| 1) * 0.3 else 0.15) ≤ 0.3 := by
      split
      · constructor <;> nlinarith
      · norm_num
    have hexit : (0:ℚ) ≤ (if a.exit_type = ExitType.PROFIT_TARGET ∨ a.exit_type = ExitType.STOP_LOSS then (0.3:ℚ)
          else if a.exit_type = ExitType.TRAILING_STOP then 0.25
          else if a.exit_type = ExitType.TIME_BASED then 0.2
          else 0.1) ∧
        (if a.exit_type = ExitType.PROFIT_TARGET ∨ a.exit_type = ExitType.STOP_LOSS then (0.3:ℚ)
          else if a.exit_type = ExitType.TRAILING_STOP then 0.25
          else if a.exit_type = ExitType.TIME_BASED then 0.2
          else 0.1) ≤ 0.3 := by
      split_ifs <;> norm_num
    constructor
    · linarith [hentry.1, hsz.1, hexit.1]
    · linarith [hentry.2, hsz.2, hexit.2]

/-- Witness for C1 at a concrete analysis. -/
theorem C1_witness :
    (0:ℚ) ≤ (0.8:ℚ) ∧ (0.8:ℚ) ≤ 1 ∧
    0 ≤ calculate_compliance_score
        { position_id := 1, entry_signal_matched := true,
          entry_signal_confidence := 0.8, exit_type := ExitType.PROFIT_TARGET } := by
  refine ⟨by norm_num, by norm_num, ?_⟩
  exact (C1_compliance_score_formula_and_bounds
    { position_id := 1, entry_signal_matched := true,
      entry_signal_confidence := 0.8, exit_type := ExitType.PROFIT_TARGET }
    (by norm_num) (by norm_num)).2.1

/-- Claim C6: `ComplianceLevel.from_score` is monotonic in the score, and its
five bands partition the score axis with boundaries exactly 0.30, 0.50,
0.70, 0.90: EXCELLENT iff score ≥ 0.90, GOOD iff 0.70 ≤ score < 0.90,
FAIR iff 0.50 ≤ score < 0.70, POOR iff 0.30 ≤ score < 0.50, and
NON_COMPLIANT iff score < 0.30, so each score maps to exactly one level. -/
theorem C6_from_score_monotone_partition (s t : ℚ) :
    (s ≤ t → levelRank (ComplianceLevel.from_score s) ≤ levelRank (ComplianceLevel.from_score t)) ∧
    (ComplianceLevel.from_score s = ComplianceLevel.EXCELLENT ↔ 0.90 ≤ s) ∧
    (ComplianceLevel.from_score s = ComplianceLevel.GOOD ↔ 0.70 ≤ s ∧ s < 0.90) ∧
    (ComplianceLevel.from_score s = ComplianceLevel.FAIR ↔ 0.50 ≤ s ∧ s < 0.70) ∧
    (ComplianceLevel.from_score s = ComplianceLevel.POOR ↔ 0.30 ≤ s ∧ s < 0.50) ∧
    (ComplianceLevel.from_score s = ComplianceLevel.NON_COMPLIANT ↔ s < 0.30) := by
  constructor
  · intro hst
    unfold ComplianceLevel.from_score
    split_ifs <;> simp [levelRank] <;> linarith
  · unfold ComplianceLevel.from_score
    split_ifs with h1 h2 h3 h4 <;>
      refine ⟨?_, ?_, ?_, ?_, ?_⟩ <;>
      simp_all <;> first | linarith | (intro h; linarith)

/-- Claim C2 counterexample: with thresholds 0.07/−0.05, a closed break-even
position and exit snapshot {atr_14: 0, close: 100, high: 100} — all three
keys present and high − close = 0 ≤ 2·atr — the claim's reading yields
TRAILING_STOP, but the code returns MANUAL: `if atr and close and high`
treats the present-but-zero ATR as missing. -/
theorem C2_counterexample :
    classify_claimed_C2 (7/100) (-(5/100)) posC2 (some indC2) = ExitType.TRAILING_STOP ∧
    classify (7/100) (-(5/100)) posC2 (some indC2) = ExitType.MANUAL := by
  have hpl : posC2.realized_pl_pct = some 0 := rfl
  have hst : posC2.status = "closed" := rfl
  have hhd : posC2.holding_days = none := rfl
  have ha : iget indC2 "atr_14" = some 0 := rfl
  have hc : iget indC2 "close" = some 100 := rfl
  have hh : iget indC2 "high" = some 100 := rfl
  constructor
  · simp only [classify_claimed_C2, hpl, hst, hhd, Option.getD_some, Option.any_some,
      Option.any_none, ha, hc, hh, Option.isSome_some]
    norm_num
    intro h
    exact Option.noConfusion h
  · have hcheck : check_trailing_stop_pattern posC2 indC2 = false := by
      simp only [check_trailing_stop_pattern, hpl, ha, qTruthy]
      norm_num
    have hind : indTruthy (some indC2) = true := rfl
    simp only [classify, hpl, hst, hhd, Option.getD_some, hind, hcheck, iTruthy]
    norm_num
    intro h
    exact Option.noConfusion h

/-- Claim C2 as amended: `classify` returns UNKNOWN when the position is not
closed or lacks a realized P&L percent; otherwise it takes, in order, the
first matching case over r = realized_pl_pct/100: r ≥ profit threshold →
PROFIT_TARGET; r ≤ stop threshold → STOP_LOSS; holding_days > 20 and
|r| < 0.02 → TIME_BASED; exit indicators given with −0.03 < r < 0.02,
atr/close/high present and nonzero, and high − close ≤ 2·atr →
TRAILING_STOP; otherwise MANUAL. -/
theorem C2_amended_classify_eq (pT sT : ℚ) (pos : Position)
    (ind : Option Indicators) :
    classify pT sT pos ind = classify_amended_C2 pT sT pos ind := by
  by_cases hgate : pos.status ≠ "closed" ∨ pos.realized_pl_pct = none
  · simp [classify, classify_amended_C2, hgate]
  · push_neg at hgate
    obtain ⟨hst, hpl⟩ := hgate
    obtain ⟨plv, hplv⟩ := Option.ne_none_iff_exists.mp hpl
    have hpl' : pos.realized_pl_pct = some plv := hplv.symm
    have h3 : ((iTruthy pos.holding_days = true ∧ 20 < pos.holding_days.getD 0) ∧
        |plv / 100| < 0.02) ↔
        (Option.any (fun d => decide (20 < d)) pos.holding_days = true ∧
        |plv / 100| < 0.02) := by
      cases hd : pos.holding_days with
      | none => simp [iTruthy]
      | some d =>
        simp only [iTruthy, Option.getD_some, Option.any_some, bne_iff_ne, ne_eq,
          decide_eq_true_eq]
        constructor
        · rintro ⟨⟨-, h20⟩, habs⟩; exact ⟨h20, habs⟩
        · rintro ⟨h20, habs⟩; exact ⟨⟨by omega, h20⟩, habs⟩
    have h4 : (indTruthy ind = true ∧
        check_trailing_stop_pattern pos (ind.getD []) = true) ↔
        (Option.any (fun l =>
          decide (-0.03 < plv / 100 ∧ plv / 100 < 0.02) &&
          (qTruthy (iget l "atr_14") && qTruthy (iget l "close") && qTruthy (iget l "high")) &&
          decide ((iget l "high").getD 0 - (iget l "close").getD 0 ≤
            2 * (iget l "atr_14").getD 0)) ind = true) := by
      cases ind with
      | none => simp [indTruthy]
      | some l =>
        cases l with
        | nil =>
          simp [indTruthy, check_trailing_stop_pattern, hpl', iget, qTruthy]
        | cons hd0 tl =>
          simp only [indTruthy, Option.getD_some, Option.any_some, List.isEmpty_cons,
            Bool.not_false, true_and, check_trailing_stop_pattern, hpl']
          by_cases hr : (-0.03 < plv / 100 ∧ plv / 100 < 0.02)
          · rw [if_pos hr]
            by_cases htr : (qTruthy (iget (hd0 :: tl) "atr_14") = true ∧
                qTruthy (iget (hd0 :: tl) "close") = true ∧
                qTruthy (iget (hd0 :: tl) "high") = true)
            · rw [if_pos htr]
              rw [show ((2:ℚ) * (iget (hd0 :: tl) "atr_14").getD 0) =
                ((iget (hd0 :: tl) "atr_14").getD 0 * 2) from mul_comm _ _]
              simp only [Bool.and_eq_true, decide_eq_true_eq]
              constructor
              · intro hle; exact ⟨⟨hr, ⟨htr.1, htr.2.1⟩, htr.2.2⟩, hle⟩
              · rintro ⟨-, hle⟩; exact hle
            · rw [if_neg htr]
              simp only [Bool.and_eq_true, decide_eq_true_eq]
              constructor
              · intro hfalse; exact absurd hfalse (by simp)
              · rintro ⟨⟨-, ⟨hq1, hq2⟩, hq3⟩, -⟩; exact absurd ⟨hq1, hq2, hq3⟩ htr
          · rw [if_neg hr]
            simp only [Bool.and_eq_true, decide_eq_true_eq]
            constructor
            · intro hfalse; exact absurd hfalse (by simp)
            · rintro ⟨⟨hr', -⟩, -⟩; exact absurd hr' hr
    have hGateFalse : ¬(pos.status ≠ "closed" ∨ pos.realized_pl_pct = none) := by
      simp [hst, hpl']
    unfold classify classify_amended_C2
    rw [if_neg hGateFalse, if_neg hGateFalse]
    simp only [hpl', Option.getD_some]
    exact if_congr Iff.rfl rfl (if_congr Iff.rfl rfl (if_congr h3 rfl (if_congr h4 rfl rfl)))

/-- Witness for C6 at concrete scores 0.65 ≤ 0.95. -/
theorem C6_witness :
    (0.65:ℚ) ≤ 0.95 ∧
    levelRank (ComplianceLevel.from_score 0.65) ≤ levelRank (ComplianceLevel.from_score 0.95) := by
  refine ⟨by norm_num, ?_⟩
  exact (C6_from_score_monotone_partition 0.65 0.95).1 (by norm_num)

/-- The mean of a non-empty list of rationals in [0,1] lies in [0,1]. -/
theorem mean_unit_interval (l : List ℚ) (h : ∀ c ∈ l, 0 ≤ c ∧ c ≤ 1) (hne : l ≠ []) :
    0 ≤ l.sum / (l.length : ℚ) ∧ l.sum / (l.length : ℚ) ≤ 1 := by
  have hlen : 0 < (l.length : ℚ) := by
    have : 0 < l.length := List.length_pos.mpr hne
    exact_mod_cast this
  have hsum0 : 0 ≤ l.sum := List.sum_nonneg (fun x hx => (h x hx).1)
  have hsum1 : l.sum ≤ (l.length : ℚ) := by
    have := List.sum_le_card_nsmul l 1 (fun x hx => (h x hx).2)
    simpa [nsmul_eq_mul] using this
  exact ⟨by positivity, by rw [div_le_one hlen]; exact hsum1⟩

/-- Claim C3: for pooled rule confidences in [0,1], both aggregation
strategies pick BUY (with mean confidence, plus — for the external-rule
strategy only — the consensus boost min(0.15, 0.05·(buy_count − 1)) capped
at 1.0) when the BUY pool is non-empty and at least as large as the SELL
pool; otherwise SELL with the SELL mean when the SELL pool is non-empty;
otherwise no signal with confidence 0; and the returned confidence always
lies in [0,1] regardless of pool sizes. -/
theorem C3_signal_aggregation (buy sell : List ℚ)
    (hbuy : ∀ c ∈ buy, 0 ≤ c ∧ c ≤ 1) (hsell : ∀ c ∈ sell, 0 ≤ c ∧ c ≤ 1) :
    (buy ≠ [] → sell.length ≤ buy.length →
      aggregate_with_rules buy sell =
        (some "BUY", min 1 (buy.sum / (buy.length : ℚ) +
          min 0.15 (0.05 * ((buy.length : ℚ) - 1)))) ∧
      aggregate_fallback buy sell = (some "BUY", buy.sum / (buy.length : ℚ))) ∧
    (¬(buy ≠ [] ∧ sell.length ≤ buy.length) → sell ≠ [] →
      aggregate_with_rules buy sell = (some "SELL", sell.sum / (sell.length : ℚ)) ∧
      aggregate_fallback buy sell = (some "SELL", sell.sum / (sell.length : ℚ))) ∧
    (buy = [] → sell = [] →
      aggregate_with_rules buy sell = (none, 0) ∧
      aggregate_fallback buy sell = (none, 0)) ∧
    (0 ≤ (aggregate_with_rules buy sell).2 ∧ (aggregate_with_rules buy sell).2 ≤ 1) ∧
    (0 ≤ (aggregate_fallback buy sell).2 ∧ (aggregate_fallback buy sell).2 ≤ 1) := by
  by_cases hb : buy ≠ [] ∧ sell.length ≤ buy.length
  · obtain ⟨hbne, hble⟩ := hb
    have hm := mean_unit_interval buy hbuy hbne
    have hone : (1:ℚ) ≤ (buy.length : ℚ) := by
      have : 0 < buy.length := List.length_pos.mpr hbne
      exact_mod_cast this
    have hboost0 : 0 ≤ min (0.15:ℚ) (0.05 * ((buy.length : ℚ) - 1)) := by
      apply le_min
      · norm_num
      · nlinarith
    refine ⟨?_, ?_, ?_, ?_, ?_⟩
    · intro _ _
      constructor <;> simp [aggregate_with_rules, aggregate_fallback, hbne, hble]
    · intro hcontra _; exact absurd ⟨hbne, hble⟩ hcontra
    · intro hbe _; exact absurd hbe hbne
    · simp only [aggregate_with_rules, if_pos (And.intro hbne hble)]
      constructor
      · exact le_min (by norm_num) (by linarith [hm.1])
      · exact min_le_left _ _
    · simp only [aggregate_fallback, if_pos (And.intro hbne hble)]
      exact hm
  · by_cases hs : sell ≠ []
    · have hm := mean_unit_interval sell hsell hs
      refine ⟨?_, ?_, ?_, ?_, ?_⟩
      · intro h1 h2; exact absurd ⟨h1, h2⟩ hb
      · intro _ _
        constructor <;> simp [aggregate_with_rules, aggregate_fallback, hb, hs]
      · intro _ hse; exact absurd hse hs
      · simp only [aggregate_with_rules, if_neg hb, if_pos hs]; exact hm
      · simp only [aggregate_fallback, if_neg hb, if_pos hs]; exact hm
    · push_neg at hs
      have hbe : buy = [] := by
        by_contra hne
        exact hb ⟨hne, by simp [hs]⟩
      refine ⟨?_, ?_, ?_, ?_, ?_⟩
      · intro h1 h2; exact absurd ⟨h1, h2⟩ hb
      · intro _ hcon; exact absurd hcon (by simp [hs])
      · intro _ _
        constructor <;> simp [aggregate_with_rules, aggregate_fallback, hbe, hs]
      · simp [aggregate_with_rules, hbe, hs]
      · simp [aggregate_fallback, hbe, hs]

/-- Witness for C3 with the concrete pools [0.6] (BUY) and [] (SELL). -/
theorem C3_witness :
    0 ≤ (aggregate_with_rules [0.6] []).2 ∧ (aggregate_with_rules [0.6] []).2 ≤ 1 := by
  have h := C3_signal_aggregation [0.6] []
    (by intro c hc; simp at hc; subst hc; norm_num)
    (by intro c hc; simp at hc)
  exact h.2.2.2.1

/-- Claim C4 counterexample: for the snapshot {sma_200: 140} with close
absent, the fallback evaluator nevertheless produces a trend_following
evaluation (a SELL, because the missing close is read as 0 and 0 < 140),
contradicting "the trend check contributes a trend_following evaluation
only when both close and sma_200 are present". -/
theorem C4_counterexample :
    iget indC4 "close" = none ∧
    (evaluate_fallback indC4).1 =
      [{ rule_name := "trend_following", triggered := true,
         signal_type := some "SELL", confidence := 0.5 }] ∧
    (evaluate_fallback indC4).2.1 = some "SELL" := by
  have hclose : iget indC4 "close" = none := rfl
  have hsma : iget indC4 "sma_200" = some 140 := rfl
  have hsma50 : iget indC4 "sma_50" = none := rfl
  have hrsi : iget indC4 "rsi_14" = none := rfl
  refine ⟨hclose, ?_, ?_⟩
  · simp only [evaluate_fallback, trend_evals, cross_evals, rsi_evals,
      hclose, hsma, hsma50, hrsi, Option.getD_some, Option.getD_none, qTruthy]
    norm_num
  · have hsig : trend_signals indC4 ++ cross_signals indC4 ++ rsi_signals indC4 =
        [("SELL", 0.5)] := by
      simp only [trend_signals, cross_signals, rsi_signals, hclose, hsma, hsma50, hrsi,
        Option.getD_some, Option.getD_none, qTruthy]
      norm_num
    have hfb : List.filter (fun s => s.1 == "BUY") [(("SELL":String), (0.5:ℚ))] = [] := by
      simp [List.filter]
    have hfs : List.filter (fun s => s.1 == "SELL") [(("SELL":String), (0.5:ℚ))] =
        [("SELL", 0.5)] := by
      simp [List.filter]
    simp only [evaluate_fallback, hsig, hfb, hfs, List.map_nil, List.map_cons]
    simp [aggregate_fallback]

/-- Claim C4 as amended: the golden/death-cross and RSI checks of the
fallback evaluator contribute evaluations only when their indicator inputs
are present (and nonzero), and the trend check only when sma_200 is present
(and nonzero) — but the trend check reads a missing close as 0, so a
snapshot with sma_200 present and positive and close absent yields a
triggered trend_following SELL evaluation; the scenario
{close: 150, sma_200: 140} yields exactly a triggered trend_following BUY
rule with confidence 0.6 and dominant signal BUY with confidence 0.6. -/
theorem C4_amended_fallback (ind : Indicators) :
    (evaluate_fallback indC4scenario =
      ([{ rule_name := "trend_following", triggered := true,
          signal_type := some "BUY", confidence := 0.6 }], some "BUY", 0.6)) ∧
    ((∃ e ∈ (evaluate_fallback ind).1, e.rule_name = "trend_following") →
      qTruthy (iget ind "sma_200") = true) ∧
    ((∃ e ∈ (evaluate_fallback ind).1, e.rule_name = "moving_average_crossover") →
      qTruthy (iget ind "sma_50") = true ∧ qTruthy (iget ind "sma_200") = true) ∧
    ((∃ e ∈ (evaluate_fallback ind).1,
        e.rule_name = "rsi_oversold" ∨ e.rule_name = "rsi_overbought") →
      qTruthy (iget ind "rsi_14") = true) ∧
    (iget ind "close" = none → ∀ s, iget ind "sma_200" = some s → 0 < s →
      ({ rule_name := "trend_following", triggered := true,
         signal_type := some "SELL", confidence := 0.5 } : RuleEvaluation) ∈
        (evaluate_fallback ind).1) := by
  refine ⟨?_, ?_, ?_, ?_, ?_⟩
  · have hclose : iget indC4scenario "close" = some 150 := rfl
    have hsma : iget indC4scenario "sma_200" = some 140 := rfl
    have hsma50 : iget indC4scenario "sma_50" = none := rfl
    have hrsi : iget indC4scenario "rsi_14" = none := rfl
    have hev : trend_evals indC4scenario ++ cross_evals indC4scenario ++
        rsi_evals indC4scenario =
        [{ rule_name := "trend_following", triggered := true,
           signal_type := some "BUY", confidence := 0.6 }] := by
      simp only [trend_evals, cross_evals, rsi_evals, hclose, hsma, hsma50, hrsi,
        Option.getD_some, Option.getD_none, qTruthy]
      norm_num
    have hsig : trend_signals indC4scenario ++ cross_signals indC4scenario ++
        rsi_signals indC4scenario = [("BUY", 0.6)] := by
      simp only [trend_signals, cross_signals, rsi_signals, hclose, hsma, hsma50, hrsi,
        Option.getD_some, Option.getD_none, qTruthy]
      norm_num
    have hfb : List.filter (fun s => s.1 == "BUY") [(("BUY":String), (0.6:ℚ))] =
        [("BUY", 0.6)] := by
      simp [List.filter]
    have hfs : List.filter (fun s => s.1 == "SELL") [(("BUY":String), (0.6:ℚ))] = [] := by
      simp [List.filter]
    simp only [evaluate_fallback, hev, hsig, hfb, hfs, List.map_nil, List.map_cons]
    simp [aggregate_fallback]
  · rintro ⟨e, he, hname⟩
    simp only [evaluate_fallback, List.mem_append] at he
    rcases he with (ht | hc) | hr
    · unfold trend_evals at ht
      split_ifs at ht with h1 h2
      · exact h1.1
      · exact h2.1
      · simp at ht
    · unfold cross_evals at hc
      split_ifs at hc with h1
      · simp only [List.mem_singleton] at hc
        subst hc
        simp at hname
      · simp at hc
    · unfold rsi_evals at hr
      split_ifs at hr with h1 h2
      · simp only [List.mem_singleton] at hr
        subst hr
        simp at hname
      · simp only [List.mem_singleton] at hr
        subst hr
        simp at hname
      · simp at hr
  · rintro ⟨e, he, hname⟩
    simp only [evaluate_fallback, List.mem_append] at he
    rcases he with (ht | hc) | hr
    · unfold trend_evals at ht
      split_ifs at ht with h1 h2
      · simp only [List.mem_singleton] at ht
        subst ht
        simp at hname
      · simp only [List.mem_singleton] at ht
        subst ht
        simp at hname
      · simp at ht
    · unfold cross_evals at hc
      split_ifs at hc with h1
      · exact ⟨h1.1.1, h1.1.2⟩
      · simp at hc
    · unfold rsi_evals at hr
      split_ifs at hr with h1 h2
      · simp only [List.mem_singleton] at hr
        subst hr
        simp at hname
      · simp only [List.mem_singleton] at hr
        subst hr
        simp at hname
      · simp at hr
  · rintro ⟨e, he, hname⟩
    simp only [evaluate_fallback, List.mem_append] at he
    rcases he with (ht | hc) | hr
    · unfold trend_evals at ht
      split_ifs at ht with h1 h2
      · simp only [List.mem_singleton] at ht
        subst ht
        simp at hname
      · simp only [List.mem_singleton] at ht
        subst ht
        simp at hname
      · simp at ht
    · unfold cross_evals at hc
      split_ifs at hc with h1
      · simp only [List.mem_singleton] at hc
        subst hc
        simp at hname
      · simp at hc
    · unfold rsi_evals at hr
      split_ifs at hr with h1 h2
      · exact h1.1
      · exact h2.1
      · simp at hr
  · intro hclose s hsma hs
    have hbne : (s != 0) = true := by
      simp only [bne_iff_ne, ne_eq]
      intro h
      rw [h] at hs
      exact lt_irrefl 0 hs
    have htrend : trend_evals ind =
        [{ rule_name := "trend_following", triggered := true,
           signal_type := some "SELL", confidence := 0.5 }] := by
      simp only [trend_evals, hclose, hsma, Option.getD_some, Option.getD_none, qTruthy]
      rw [if_neg, if_pos]
      · exact ⟨hbne, hs⟩
      · rintro ⟨-, hlt⟩
        exact absurd hlt (not_lt.mpr hs.le)
    simp only [evaluate_fallback, htrend]
    simp

/-- Witness for C4's amended theorem: the missing-close conjunct applied at
the concrete snapshot {sma_200: 140}. -/
theorem C4_witness :
    ({ rule_name := "trend_following", triggered := true,
       signal_type := some "SELL", confidence := 0.5 } : RuleEvaluation) ∈
      (evaluate_fallback indC4).1 :=
  (C4_amended_fallback indC4).2.2.2.2 rfl 140 rfl (by norm_num)

/-- Which bucket the confidence-bucket assignment picks on [0,1]: the four
bands in order, first match winning. -/
theorem bucketAssign_cases (c : ℚ) (h0 : 0 ≤ c) (h1 : c ≤ 1) :
    (c < 0.25 ∧ bucketAssign c = some "0-25%") ∨
    (0.25 ≤ c ∧ c < 0.50 ∧ bucketAssign c = some "25-50%") ∨
    (0.50 ≤ c ∧ c < 0.75 ∧ bucketAssign c = some "50-75%") ∨
    (0.75 ≤ c ∧ c < 1.01 ∧ bucketAssign c = some "75-100%") := by
  by_cases h25 : c < 0.25
  · left
    refine ⟨h25, ?_⟩
    unfold bucketAssign CONFIDENCE_BUCKETS
    rw [List.find?_cons_of_pos]
    · rfl
    · simp [h0, h25]
  · by_cases h50 : c < 0.50
    · right; left
      have h25' : (0.25:ℚ) ≤ c := not_lt.mp h25
      refine ⟨h25', h50, ?_⟩
      unfold bucketAssign CONFIDENCE_BUCKETS
      rw [List.find?_cons_of_neg _ (by simp [h25]), List.find?_cons_of_pos]
      · rfl
      · simp [h25', h50]
    · by_cases h75 : c < 0.75
      · right; right; left
        have h50' : (0.50:ℚ) ≤ c := not_lt.mp h50
        refine ⟨h50', h75, ?_⟩
        unfold bucketAssign CONFIDENCE_BUCKETS
        rw [List.find?_cons_of_neg _ (by simp [h25]), List.find?_cons_of_neg _ (by simp [h50]),
          List.find?_cons_of_pos]
        · rfl
        · simp [h50', h75]
      · right; right; right
        have h75' : (0.75:ℚ) ≤ c := not_lt.mp h75
        have h101 : c < 1.01 := lt_of_le_of_lt h1 (by norm_num)
        refine ⟨h75', h101, ?_⟩
        unfold bucketAssign CONFIDENCE_BUCKETS
        rw [List.find?_cons_of_neg _ (by simp [h25]), List.find?_cons_of_neg _ (by simp [h50]),
          List.find?_cons_of_neg _ (by simp [h75]), List.find?_cons_of_pos]
        · rfl
        · simp [h75', h101]

/-- Claim C7: every entry confidence in [0,1] (1.0 included) satisfies the
membership test of exactly one of the four half-open buckets, the
assignment picks that (first matching) bucket, and over any pair list with
confidences in [0,1] the four bucket counts sum to the number of pairs —
each paired trade is counted in exactly its bucket. -/
theorem C7_confidence_bucket_partition :
    (∀ c : ℚ, 0 ≤ c → c ≤ 1 →
      ∃ b ∈ CONFIDENCE_BUCKETS, (b.lo ≤ c ∧ c < b.hi) ∧
        bucketAssign c = some b.label ∧
        ∀ b' ∈ CONFIDENCE_BUCKETS, b'.lo ≤ c → c < b'.hi → b' = b) ∧
    (∀ pairs : List (TradeAnalysis × Position),
      (∀ pr ∈ pairs, 0 ≤ pr.1.entry_signal_confidence ∧ pr.1.entry_signal_confidence ≤ 1) →
      ((confidence_bucket_counts pairs).map Prod.snd).sum = pairs.length) := by
  constructor
  · intro c h0 h1
    rcases bucketAssign_cases c h0 h1 with ⟨h25, hassign⟩ | ⟨h25, h50, hassign⟩ |
      ⟨h50, h75, hassign⟩ | ⟨h75, h101, hassign⟩
    · refine ⟨{ label := "0-25%", lo := 0, hi := 0.25 }, by simp [CONFIDENCE_BUCKETS],
        ⟨h0, h25⟩, hassign, ?_⟩
      intro b' hb' hlo hhi
      fin_cases hb' <;> first | rfl | (exfalso; simp_all; linarith)
    · refine ⟨{ label := "25-50%", lo := 0.25, hi := 0.50 }, by simp [CONFIDENCE_BUCKETS],
        ⟨h25, h50⟩, hassign, ?_⟩
      intro b' hb' hlo hhi
      fin_cases hb' <;> first | rfl | (exfalso; simp_all; linarith)
    · refine ⟨{ label := "50-75%", lo := 0.50, hi := 0.75 }, by simp [CONFIDENCE_BUCKETS],
        ⟨h50, h75⟩, hassign, ?_⟩
      intro b' hb' hlo hhi
      fin_cases hb' <;> first | rfl | (exfalso; simp_all; linarith)
    · refine ⟨{ label := "75-100%", lo := 0.75, hi := 1.01 }, by simp [CONFIDENCE_BUCKETS],
        ⟨h75, h101⟩, hassign, ?_⟩
      intro b' hb' hlo hhi
      fin_cases hb' <;> first | rfl | (exfalso; simp_all; linarith)
  · intro pairs
    induction pairs with
    | nil =>
      intro _
      simp [confidence_bucket_counts, CONFIDENCE_BUCKETS]
    | cons pr t ih =>
      intro hconf
      have hpr := hconf pr (List.mem_cons_self pr t)
      have iht := ih (fun q hq => hconf q (List.mem_cons_of_mem _ hq))
      simp only [confidence_bucket_counts, CONFIDENCE_BUCKETS, List.map_cons,
        List.map_nil, List.sum_cons, List.sum_nil] at iht ⊢
      rcases bucketAssign_cases pr.1.entry_signal_confidence hpr.1 hpr.2 with
        ⟨-, hassign⟩ | ⟨-, -, hassign⟩ | ⟨-, -, hassign⟩ | ⟨-, -, hassign⟩ <;>
        simp only [List.filter_cons, hassign, decide_eq_true_eq, Option.some.injEq] <;>
        simp <;> omega

/-- Witness for C7 at confidence exactly 1.0: it lands in the 75-100%
bucket. -/
theorem C7_witness :
    (0:ℚ) ≤ 1 ∧ (1:ℚ) ≤ 1 ∧ bucketAssign 1 = some "75-100%" := by
  refine ⟨by norm_num, le_refl 1, ?_⟩
  obtain ⟨b, hb, hint, hassign, huniq⟩ :=
    C7_confidence_bucket_partition.1 1 (by norm_num) (le_refl 1)
  have hb4 : ({ label := "75-100%", lo := 0.75, hi := 1.01 } : ConfBucket) = b :=
    huniq _ (by simp [CONFIDENCE_BUCKETS]) (by norm_num) (by norm_num)
  rw [hassign, ← hb4]

/-- Claim C8: the Signal-Outcome Analyzer's join keeps exactly the analyses
whose position id resolves to a position with a realized P&L percent, each
paired with that looked-up position (never a substituted default), and
drops the rest. -/
theorem C8_build_pairs_join (analyses : List TradeAnalysis)
    (lookup : Int → Option Position) (a : TradeAnalysis) (p : Position) :
    ((a, p) ∈ build_pairs analyses lookup ↔
      a ∈ analyses ∧ lookup a.position_id = some p ∧ p.realized_pl_pct ≠ none) ∧
    (build_pairs analyses lookup).length ≤ analyses.length := by
  induction analyses with
  | nil => simp [build_pairs]
  | cons a0 rest ih =>
    constructor
    · cases hlk : lookup a0.position_id with
      | none =>
        simp only [build_pairs, hlk]
        rw [ih.1]
        constructor
        · rintro ⟨ha, h⟩; exact ⟨List.mem_cons_of_mem _ ha, h⟩
        · rintro ⟨ha, hl, hp⟩
          rcases List.mem_cons.mp ha with rfl | ha'
          · rw [hlk] at hl; exact Option.noConfusion hl
          · exact ⟨ha', hl, hp⟩
      | some p0 =>
        by_cases hpl : p0.realized_pl_pct.isSome
        · simp only [build_pairs, hlk, if_pos hpl]
          constructor
          · intro hmem
            rcases List.mem_cons.mp hmem with hpair | hrec
            · injection hpair with h1 h2
              subst h1
              subst h2
              exact ⟨List.mem_cons_self _ _, hlk, Option.isSome_iff_ne_none.mp hpl⟩
            · obtain ⟨ha, h⟩ := ih.1.mp hrec
              exact ⟨List.mem_cons_of_mem _ ha, h⟩
          · rintro ⟨ha, hl, hp⟩
            rcases List.mem_cons.mp ha with rfl | ha'
            · rw [hlk] at hl
              injection hl with h1
              subst h1
              exact List.mem_cons_self _ _
            · exact List.mem_cons_of_mem _ (ih.1.mpr ⟨ha', hl, hp⟩)
        · simp only [build_pairs, hlk, if_neg hpl]
          rw [ih.1]
          constructor
          · rintro ⟨ha, h⟩; exact ⟨List.mem_cons_of_mem _ ha, h⟩
          · rintro ⟨ha, hl, hp⟩
            rcases List.mem_cons.mp ha with rfl | ha'
            · rw [hlk] at hl
              injection hl with h1
              subst h1
              exact absurd (Option.isSome_iff_ne_none.mpr hp) hpl
            · exact ⟨ha', hl, hp⟩
    · cases hlk : lookup a0.position_id with
      | none =>
        simp only [build_pairs, hlk, List.length_cons]
        exact Nat.le_succ_of_le ih.2
      | some p0 =>
        by_cases hpl : p0.realized_pl_pct.isSome
        · simp only [build_pairs, hlk, if_pos hpl, List.length_cons]
          exact Nat.succ_le_succ ih.2
        · simp only [build_pairs, hlk, if_neg hpl, List.length_cons]
          exact Nat.le_succ_of_le ih.2

/-- Claim C9: `analyze_positions` never propagates a per-position failure —
the result is exactly the list of successfully produced analyses in input
order (the failing positions are skipped), its length is at most the input
length, and equals it when every per-position analysis succeeds. -/
theorem C9_analyze_positions_skips_failures (f : Position → Option TradeAnalysis)
    (positions : List Position) :
    analyze_positions f positions = positions.filterMap f ∧
    (analyze_positions f positions).length ≤ positions.length ∧
    ((∀ p ∈ positions, (f p).isSome) →
      (analyze_positions f positions).length = positions.length) := by
  induction positions with
  | nil => simp [analyze_positions]
  | cons p rest ih =>
    cases hf : f p with
    | none =>
      have heq : analyze_positions f (p :: rest) = analyze_positions f rest := by
        simp [analyze_positions, hf]
      have hfm : (p :: rest).filterMap f = rest.filterMap f := by
        simp [List.filterMap_cons, hf]
      refine ⟨by rw [heq, hfm, ih.1], by rw [heq]; exact Nat.le_succ_of_le ih.2.1, ?_⟩
      intro hall
      have := hall p (List.mem_cons_self p rest)
      rw [hf] at this
      simp at this
    | some a =>
      have heq : analyze_positions f (p :: rest) = a :: analyze_positions f rest := by
        simp [analyze_positions, hf]
      have hfm : (p :: rest).filterMap f = a :: rest.filterMap f := by
        simp [List.filterMap_cons, hf]
      refine ⟨by rw [heq, hfm, ih.1], ?_, ?_⟩
      · rw [heq, List.length_cons, List.length_cons]
        exact Nat.succ_le_succ ih.2.1
      · intro hall
        rw [heq, List.length_cons, List.length_cons]
        exact congrArg Nat.succ (ih.2.2 (fun q hq => hall q (List.mem_cons_of_mem _ hq)))

/-- Witness for C9: a one-position batch whose analysis succeeds keeps its
length. -/
theorem C9_witness :
    (∀ p ∈ [posC9a], (fC9 p).isSome) ∧
    (analyze_positions fC9 [posC9a]).length = [posC9a].length := by
  have hall : ∀ p ∈ [posC9a], (fC9 p).isSome := by
    intro p hp
    simp only [List.mem_singleton] at hp
    subst hp
    simp [fC9, posC9a]
  exact ⟨hall, (C9_analyze_positions_skips_failures fC9 [posC9a]).2.2 hall⟩

/-- Two lists that are permutations of each other, both sorted by a key, and
whose keys are pairwise distinct, are equal. -/
theorem eq_of_perm_sorted_of_nodup_keys (f : TradeAnalysis → ℚ) :
    ∀ l₁ l₂ : List TradeAnalysis, l₁.Perm l₂ →
      l₁.Sorted (fun a b => f a ≤ f b) → l₂.Sorted (fun a b => f a ≤ f b) →
      (l₁.map f).Nodup → l₁ = l₂ := by
  intro l₁
  induction l₁ with
  | nil =>
    intro l₂ hp _ _ _
    exact (hp.symm.eq_nil).symm
  | cons a t ih =>
    intro l₂ hp hs1 hs2 hnd
    cases l₂ with
    | nil => exact absurd hp.eq_nil (by simp)
    | cons b t₂ =>
      by_cases hab : a = b
      · subst hab
        have hp' := hp.cons_inv
        have hndt : (t.map f).Nodup := by
          have := hnd
          rw [List.map_cons, List.nodup_cons] at this
          exact this.2
        rw [ih t₂ hp' hs1.of_cons hs2.of_cons hndt]
      · exfalso
        have hbmem : b ∈ a :: t := hp.mem_iff.mpr (List.mem_cons_self b t₂)
        have hamem : a ∈ b :: t₂ := hp.mem_iff.mp (List.mem_cons_self a t)
        have hbt : b ∈ t := by
          rcases List.mem_cons.mp hbmem with h | h
          · exact absurd h.symm hab
          · exact h
        have hat2 : a ∈ t₂ := by
          rcases List.mem_cons.mp hamem with h | h
          · exact absurd h hab
          · exact h
        have hfab : f a ≤ f b := List.rel_of_sorted_cons hs1 b hbt
        have hfba : f b ≤ f a := List.rel_of_sorted_cons hs2 a hat2
        have hfe : f a = f b := le_antisymm hfab hfba
        have hmem : f a ∈ t.map f := by
          rw [hfe]
          exact List.mem_map_of_mem f hbt
        have hnd' : f a ∉ t.map f := by
          have := hnd
          rw [List.map_cons, List.nodup_cons] at this
          exact this.1
        exact hnd' hmem

/-- Claim C5 counterexample: two analyses with equal compliance score 0.5 and
distinct position ids.  Swapping them is a permutation, the metrics agree,
but `worst_deviations` comes out in input order both times (Python's sort
is stable), so the two reports differ. -/
theorem C5_counterexample :
    [taC5a, taC5b].Perm [taC5b, taC5a] ∧
    (generate_report (fun _ => none) [taC5a, taC5b]).worst_deviations ≠
      (generate_report (fun _ => none) [taC5b, taC5a]).worst_deviations := by
  refine ⟨List.Perm.swap taC5b taC5a [], ?_⟩
  have h1 : (generate_report (fun _ => none) [taC5a, taC5b]).worst_deviations =
      [taC5a, taC5b] := by
    simp [generate_report, List.insertionSort, List.orderedInsert, taC5a, taC5b]
  have h2 : (generate_report (fun _ => none) [taC5b, taC5a]).worst_deviations =
      [taC5b, taC5a] := by
    simp [generate_report, List.insertionSort, List.orderedInsert, taC5a, taC5b]
  rw [h1, h2]
  intro h
  have hhead : taC5a = taC5b := by
    injection h
  have : (1 : Int) = 2 := congrArg TradeAnalysis.position_id hhead
  norm_num at this

/-- Claim C5 as amended: permuting the analysis list never changes the
ComplianceMetrics of the generated report; and whenever the compliance
scores are pairwise distinct, `worst_deviations` and `best_compliant` are
unchanged as well (with tied scores the stable sort breaks ties by input
order, so only tie order can differ). -/
theorem C5_amended_report_perm (l l' : List TradeAnalysis)
    (lookup : Int → Option Position) (hperm : l.Perm l') :
    (generate_report lookup l).metrics = (generate_report lookup l').metrics ∧
    ((l.map (fun a => a.rule_compliance_score)).Nodup →
      (generate_report lookup l).worst_deviations =
        (generate_report lookup l').worst_deviations ∧
      (generate_report lookup l).best_compliant =
        (generate_report lookup l').best_compliant) := by
  by_cases hemp : l = []
  · subst hemp
    have : l' = [] := hperm.symm.eq_nil
    subst this
    simp [generate_report]
  · have hemp' : l' ≠ [] := by
      intro h
      subst h
      exact hemp hperm.eq_nil
    have hlen := hperm.length_eq
    have hm : computeMetrics lookup l = computeMetrics lookup l' := by
      unfold computeMetrics compliant_wins compliant_losses
        non_compliant_wins non_compliant_losses
      congr 1 <;>
        first
        | exact hlen
        | exact hperm.countP_eq _
        | (rw [if_neg hemp, if_neg hemp', (hperm.map _).sum_eq, hlen])
        | (rw [hperm.countP_eq, hperm.countP_eq])
    constructor
    · simp only [generate_report, if_neg hemp, if_neg hemp']
      exact hm
    · intro hnd
      haveI hTot : IsTotal TradeAnalysis
          (fun a b => a.rule_compliance_score ≤ b.rule_compliance_score) :=
        ⟨fun a b => le_total _ _⟩
      haveI hTrans : IsTrans TradeAnalysis
          (fun a b => a.rule_compliance_score ≤ b.rule_compliance_score) :=
        ⟨fun _ _ _ hab hbc => le_trans hab hbc⟩
      have hs1 := List.sorted_insertionSort
        (fun a b : TradeAnalysis => a.rule_compliance_score ≤ b.rule_compliance_score) l
      have hs2 := List.sorted_insertionSort
        (fun a b : TradeAnalysis => a.rule_compliance_score ≤ b.rule_compliance_score) l'
      have hp1 := List.perm_insertionSort
        (fun a b : TradeAnalysis => a.rule_compliance_score ≤ b.rule_compliance_score) l
      have hp2 := List.perm_insertionSort
        (fun a b : TradeAnalysis => a.rule_compliance_score ≤ b.rule_compliance_score) l'
      have hp : (List.insertionSort
          (fun a b : TradeAnalysis => a.rule_compliance_score ≤ b.rule_compliance_score)
          l).Perm (List.insertionSort
          (fun a b : TradeAnalysis => a.rule_compliance_score ≤ b.rule_compliance_score) l') :=
        hp1.trans (hperm.trans hp2.symm)
      have hnd' : ((List.insertionSort
          (fun a b : TradeAnalysis => a.rule_compliance_score ≤ b.rule_compliance_score)
          l).map (fun a => a.rule_compliance_score)).Nodup :=
        ((hp1.map _).nodup_iff).mpr hnd
      have heq := eq_of_perm_sorted_of_nodup_keys (fun a => a.rule_compliance_score)
        _ _ hp hs1 hs2 hnd'
      constructor
      · simp only [generate_report, if_neg hemp, if_neg hemp']
        rw [heq]
      · simp only [generate_report, if_neg hemp, if_neg hemp']
        rw [heq]

/-- Witness for C5's amended theorem at the concrete swapped pair. -/
theorem C5_witness :
    ([taC5a, taC5b].Perm [taC5b, taC5a]) ∧
    (generate_report (fun _ => none) [taC5a, taC5b]).metrics =
      (generate_report (fun _ => none) [taC5b, taC5a]).metrics := by
  have hp : [taC5a, taC5b].Perm [taC5b, taC5a] := List.Perm.swap taC5b taC5a []
  exact ⟨hp, (C5_amended_report_perm _ _ (fun _ => none) hp).1⟩

/-- The five compliance-level counters partition any analysis list. -/
theorem level_counts_partition (analyses : List TradeAnalysis) :
    analyses.countP (fun a => decide (a.compliance_level = ComplianceLevel.EXCELLENT)) +
    analyses.countP (fun a => decide (a.compliance_level = ComplianceLevel.GOOD)) +
    analyses.countP (fun a => decide (a.compliance_level = ComplianceLevel.FAIR)) +
    analyses.countP (fun a => decide (a.compliance_level = ComplianceLevel.POOR)) +
    analyses.countP (fun a => decide (a.compliance_level ≠ ComplianceLevel.EXCELLENT ∧
      a.compliance_level ≠ ComplianceLevel.GOOD ∧
      a.compliance_level ≠ ComplianceLevel.FAIR ∧
      a.compliance_level ≠ ComplianceLevel.POOR)) = analyses.length := by
  induction analyses with
  | nil => simp
  | cons a t ih =>
    simp only [List.countP_cons, List.length_cons]
    cases h : a.compliance_level <;> simp [h] at ih ⊢ <;> omega

/-- The matched/unmatched entry counters partition any analysis list. -/
theorem signal_counts_partition (analyses : List TradeAnalysis) :
    analyses.countP (fun a => a.entry_signal_matched) +
    analyses.countP (fun a => !a.entry_signal_matched) = analyses.length := by
  induction analyses with
  | nil => simp
  | cons a t ih =>
    simp only [List.countP_cons, List.length_cons]
    cases h : a.entry_signal_matched <;> simp [h] <;> omega

/-- The four exit-type counters partition any analysis list. -/
theorem exit_counts_partition (analyses : List TradeAnalysis) :
    analyses.countP (fun a => decide (a.exit_type = ExitType.PROFIT_TARGET)) +
    analyses.countP (fun a => decide (a.exit_type = ExitType.STOP_LOSS)) +
    analyses.countP (fun a => decide (a.exit_type = ExitType.MANUAL)) +
    analyses.countP (fun a => decide (a.exit_type ≠ ExitType.PROFIT_TARGET ∧
      a.exit_type ≠ ExitType.STOP_LOSS ∧ a.exit_type ≠ ExitType.MANUAL)) =
    analyses.length := by
  induction analyses with
  | nil => simp
  | cons a t ih =>
    simp only [List.countP_cons, List.length_cons]
    cases h : a.exit_type <;> simp [h] at ih ⊢ <;> omega

/-- Claim C10: for a non-empty analysis list the report metrics satisfy the
counting invariants — compliance-level counts, signal counts and exit-type
counts each sum to `analyzed_positions`, and `total_positions` =
`analyzed_positions` = the length of the analysis list. -/
theorem C10_metrics_counting_invariants (lookup : Int → Option Position)
    (analyses : List TradeAnalysis) (hne : analyses ≠ []) :
    ((generate_report lookup analyses).metrics.excellent_count +
      (generate_report lookup analyses).metrics.good_count +
      (generate_report lookup analyses).metrics.fair_count +
      (generate_report lookup analyses).metrics.poor_count +
      (generate_report lookup analyses).metrics.non_compliant_count =
      (generate_report lookup analyses).metrics.analyzed_positions) ∧
    ((generate_report lookup analyses).metrics.entries_with_buy_signal +
      (generate_report lookup analyses).metrics.entries_without_signal =
      (generate_report lookup analyses).metrics.analyzed_positions) ∧
    ((generate_report lookup analyses).metrics.profit_target_exits +
      (generate_report lookup analyses).metrics.stop_loss_exits +
      (generate_report lookup analyses).metrics.manual_exits +
      (generate_report lookup analyses).metrics.other_exits =
      (generate_report lookup analyses).metrics.analyzed_positions) ∧
    ((generate_report lookup analyses).metrics.total_positions =
      (generate_report lookup analyses).metrics.analyzed_positions) ∧
    ((generate_report lookup analyses).metrics.analyzed_positions = analyses.length) := by
  simp only [generate_report, if_neg hne, computeMetrics]
  refine ⟨level_counts_partition analyses, signal_counts_partition analyses,
    exit_counts_partition analyses, ?_, ?_⟩ <;> first | rfl | trivial

/-- Witness for C10 on the singleton batch. -/
theorem C10_witness :
    ([taC5a] : List TradeAnalysis) ≠ [] ∧
    (generate_report (fun _ => none) [taC5a]).metrics.analyzed_positions = 1 := by
  refine ⟨by simp, ?_⟩
  have h := C10_metrics_counting_invariants (fun _ => none) [taC5a] (by simp)
  simpa using h.2.2.2.2

end ReportingService
